import Mathlib

/-!
Verification of the punchlist diff-and-report pipeline.

Shallow embedding of:
* `netlify/functions/env_check.js` (second module: the `generate_punchlist`
  handler): diff-row to punchlist-item computation, punchlist persistence
  sequencing, HTTP response mapping.
* `netlify/functions/punchlist_pdf.js`: pagination, footer page numbering,
  cell-text clamping, remote logo embedding.

External effects (fetches to the backend and to logo URLs) are passed in as
explicit parameters; the handler's outbound requests are recorded as an
effect trace so that sequencing properties can be stated.
-/

/-- A row of the `v_manifest_vs_received` diff view.  The numeric fields are
nullable (`r.expected_qty ?? 0` in the source), hence `Option Int`. -/
structure DiffRow where
  manufacturer : String
  model : String
  room : String
  expected_qty : Option Int
  total_received : Option Int
  total_damaged : Option Int
deriving DecidableEq

/-- A computed punchlist line item (the object literal built in the
`diff.map` callback of `generate_punchlist`). -/
structure Item where
  manufacturer : String
  model : String
  room : String
  expected_qty : Int
  received_qty : Int
  missing_qty : Int
  damaged_qty : Int
deriving DecidableEq

/-- The `diff.map` callback:
`missing = Math.max((r.expected_qty ?? 0) - (r.total_received ?? 0), 0)`,
`damaged = r.total_damaged ?? 0`, other fields copied with `?? 0` defaults. -/
def mkItem (r : DiffRow) : Item :=
  { manufacturer := r.manufacturer
    model := r.model
    room := r.room
    expected_qty := r.expected_qty.getD 0
    received_qty := r.total_received.getD 0
    missing_qty := max (r.expected_qty.getD 0 - r.total_received.getD 0) 0
    damaged_qty := r.total_damaged.getD 0 }

/-- Step 2 of `generate_punchlist`: map the diff rows to items and keep only
those with `missing_qty > 0 || damaged_qty > 0`. -/
def computeItems (diff : List DiffRow) : List Item :=
  (diff.map mkItem).filter (fun i => decide (0 < i.missing_qty ∨ 0 < i.damaged_qty))

/-- C1: for every input diff row, the computed `missing_qty` is
`max(expected_qty - received_qty, 0)` with absent fields read as 0, and every
item of the computed list has a non-negative `missing_qty`. -/
theorem computeItems_missing_nonneg (diff : List DiffRow) :
    (∀ r ∈ diff,
      (mkItem r).missing_qty = max (r.expected_qty.getD 0 - r.total_received.getD 0) 0 ∧
      0 ≤ (mkItem r).missing_qty) ∧
    ∀ i ∈ computeItems diff, 0 ≤ i.missing_qty := by
  constructor
  · intro r _hr
    exact ⟨rfl, le_max_right _ _⟩
  · intro i hi
    unfold computeItems at hi
    rcases List.mem_filter.mp hi with ⟨hmem, _⟩
    rcases List.mem_map.mp hmem with ⟨r, _, hr⟩
    subst hr
    exact le_max_right _ _

theorem computeItems_missing_nonneg_witness :
    ((mkItem ⟨"Acme", "X1", "101", some 5, some 3, some 1⟩).missing_qty =
      max ((5 : Int) - 3) 0 ∧
      0 ≤ (mkItem ⟨"Acme", "X1", "101", some 5, some 3, some 1⟩).missing_qty) :=
  (computeItems_missing_nonneg [⟨"Acme", "X1", "101", some 5, some 3, some 1⟩]).1
    ⟨"Acme", "X1", "101", some 5, some 3, some 1⟩ (by simp)

/-- C2: a diff row's computed item appears in the filtered item list iff its
`missing_qty` or `damaged_qty` is positive; rows where both are zero (or
non-positive) are dropped. -/
theorem computeItems_mem_iff (diff : List DiffRow) (r : DiffRow) (h : r ∈ diff) :
    mkItem r ∈ computeItems diff ↔
      (0 < (mkItem r).missing_qty ∨ 0 < (mkItem r).damaged_qty) := by
  unfold computeItems
  rw [List.mem_filter]
  constructor
  · intro hmem
    exact of_decide_eq_true hmem.2
  · intro hpos
    exact ⟨List.mem_map_of_mem mkItem h, decide_eq_true hpos⟩

theorem computeItems_mem_iff_witness :
    (mkItem ⟨"Acme", "X1", "101", some 5, some 5, some 0⟩ ∈
      computeItems [⟨"Acme", "X1", "101", some 5, some 5, some 0⟩] ↔
      (0 < (mkItem ⟨"Acme", "X1", "101", some 5, some 5, some 0⟩).missing_qty ∨
       0 < (mkItem ⟨"Acme", "X1", "101", some 5, some 5, some 0⟩).damaged_qty)) :=
  computeItems_mem_iff [⟨"Acme", "X1", "101", some 5, some 5, some 0⟩]
    ⟨"Acme", "X1", "101", some 5, some 5, some 0⟩ (by simp)

/-- The row returned by the punchlist header insert (`const [pl] = ...`); only
its `id` is used downstream. -/
structure PunchlistRow where
  id : String
deriving DecidableEq

/-- An item with the punchlist id attached (`{ ...i, punchlist_id: pl.id }`). -/
structure PersistedItem where
  item : Item
  punchlist_id : String
deriving DecidableEq

/-- One outbound backend request issued by `generate_punchlist`, in order. -/
inductive Effect where
  | readDiff
  | createHeader (work_order_id : Option String) (status : String)
  | insertItems (payload : List PersistedItem)
deriving DecidableEq

/-- The JSON body of the handler's HTTP response. -/
inductive RespBody where
  | err (msg : String)
  | success (punchlist_id : String) (work_order_id : Option String)
      (items_count : Nat) (items : List PersistedItem)
deriving DecidableEq

/-- The handler's HTTP response. -/
structure HttpResponse where
  status : Nat
  body : RespBody
deriving DecidableEq

/-- The environment variables the handler reads (`none` = unset). -/
structure Env where
  supabase_url : Option String
  service_role_key : Option String
deriving DecidableEq

/-- A parsed request body: `{ work_order_id?: string|null }`. -/
structure ReqBody where
  work_order_id : Option String
deriving DecidableEq

/-- Results of the handler's outbound fetches, supplied by the environment:
the diff-view read, the punchlist header insert (a function of the
`work_order_id` sent), and the batch item insert (a function of the payload).
`Except.error t` models a non-2xx response with error text `t`. -/
structure Backend where
  diffView : Except String (List DiffRow)
  createPunchlist : Option String → Except String PunchlistRow
  insertItemsReq : List PersistedItem → Except String (List PersistedItem)

/-- `const body = await req.json().catch(() => ({}));`
`const work_order_id = body?.work_order_id ?? null;`
A JSON parse failure yields `{}`, whose `work_order_id` is `null`. -/
def parsedWoid (bodyParse : Except String ReqBody) : Option String :=
  match bodyParse with
  | .error _ => none
  | .ok b => b.work_order_id

/-- The `generate_punchlist` handler (second default export of
`env_check.js`), returning the HTTP response together with the ordered trace
of outbound backend requests it issued. -/
def generate_punchlist (env : Env) (method : String)
    (bodyParse : Except String ReqBody) (be : Backend) :
    HttpResponse × List Effect :=
  if method ≠ "POST" then
    (⟨405, .err "Use POST"⟩, [])
  else if env.supabase_url.isNone || env.service_role_key.isNone then
    (⟨500, .err "Missing SUPABASE_URL or SERVICE ROLE KEY"⟩, [])
  else
    let work_order_id := parsedWoid bodyParse
    match be.diffView with
    | .error t => (⟨500, .err ("Failed to read diff view: " ++ t)⟩, [.readDiff])
    | .ok diff =>
      let items := computeItems diff
      match be.createPunchlist work_order_id with
      | .error t =>
        (⟨500, .err ("Failed to create punchlist: " ++ t)⟩,
         [.readDiff, .createHeader work_order_id "draft"])
      | .ok pl =>
        if 0 < items.length then
          let payload := items.map (fun i => ⟨i, pl.id⟩)
          match be.insertItemsReq payload with
          | .error t =>
            (⟨500, .err ("Failed to insert punchlist items: " ++ t)⟩,
             [.readDiff, .createHeader work_order_id "draft", .insertItems payload])
          | .ok inserted =>
            (⟨200, .success pl.id work_order_id inserted.length inserted⟩,
             [.readDiff, .createHeader work_order_id "draft", .insertItems payload])
        else
          (⟨200, .success pl.id work_order_id 0 []⟩,
           [.readDiff, .createHeader work_order_id "draft"])

/-- C4: when the computed item list is empty, the handler still issues the
punchlist header create and answers HTTP 200 with `items_count = 0` and
`items = []`. -/
theorem generate_punchlist_empty_ok (env : Env) (bodyParse : Except String ReqBody)
    (be : Backend) (diff : List DiffRow) (pl : PunchlistRow)
    (hu : env.supabase_url.isNone = false) (hk : env.service_role_key.isNone = false)
    (hd : be.diffView = .ok diff) (hempty : computeItems diff = [])
    (hc : be.createPunchlist (parsedWoid bodyParse) = .ok pl) :
    generate_punchlist env "POST" bodyParse be =
      (⟨200, .success pl.id (parsedWoid bodyParse) 0 []⟩,
       [.readDiff, .createHeader (parsedWoid bodyParse) "draft"]) := by
  unfold generate_punchlist
  simp only [hu, hk, hd, hc, hempty]
  rfl

theorem generate_punchlist_empty_ok_witness :
    generate_punchlist ⟨some "http://supabase", some "srk"⟩ "POST" (.ok ⟨none⟩)
      ⟨.ok [], fun _ => .ok ⟨"pl-1"⟩, fun p => .ok p⟩ =
      (⟨200, .success "pl-1" none 0 []⟩,
       [.readDiff, .createHeader none "draft"]) :=
  generate_punchlist_empty_ok ⟨some "http://supabase", some "srk"⟩ (.ok ⟨none⟩)
    ⟨.ok [], fun _ => .ok ⟨"pl-1"⟩, fun p => .ok p⟩ [] ⟨"pl-1"⟩
    rfl rfl rfl rfl rfl

/-- C5: the persister is strictly sequential with no rollback.  If the header
create fails, the handler answers 500 and no item-insert request appears in
the trace.  If the header create succeeds and the batch insert fails, the
handler answers 500 while the trace still contains the successful header
create and nothing else after the failed insert (no compensating delete). -/
theorem generate_punchlist_sequential_no_rollback (env : Env)
    (bodyParse : Except String ReqBody) (be : Backend) (diff : List DiffRow)
    (hu : env.supabase_url.isNone = false) (hk : env.service_role_key.isNone = false)
    (hd : be.diffView = .ok diff) :
    (∀ e, be.createPunchlist (parsedWoid bodyParse) = .error e →
      (generate_punchlist env "POST" bodyParse be).1.status = 500 ∧
      ∀ p, Effect.insertItems p ∉ (generate_punchlist env "POST" bodyParse be).2) ∧
    (∀ pl e, be.createPunchlist (parsedWoid bodyParse) = .ok pl →
      0 < (computeItems diff).length →
      be.insertItemsReq ((computeItems diff).map (fun i => ⟨i, pl.id⟩)) = .error e →
      (generate_punchlist env "POST" bodyParse be).1.status = 500 ∧
      (generate_punchlist env "POST" bodyParse be).2 =
        [.readDiff, .createHeader (parsedWoid bodyParse) "draft",
         .insertItems ((computeItems diff).map (fun i => ⟨i, pl.id⟩))]) := by
  constructor
  · intro e he
    have hres : generate_punchlist env "POST" bodyParse be =
        (⟨500, .err ("Failed to create punchlist: " ++ e)⟩,
         [.readDiff, .createHeader (parsedWoid bodyParse) "draft"]) := by
      unfold generate_punchlist
      simp only [hu, hk, hd, he]
      rfl
    rw [hres]
    refine ⟨rfl, ?_⟩
    intro p hp
    simp at hp
  · intro pl e hpl hlen hins
    have hres : generate_punchlist env "POST" bodyParse be =
        (⟨500, .err ("Failed to insert punchlist items: " ++ e)⟩,
         [.readDiff, .createHeader (parsedWoid bodyParse) "draft",
          .insertItems ((computeItems diff).map (fun i => ⟨i, pl.id⟩))]) := by
      unfold generate_punchlist
      simp only [hu, hk, hd, hpl, if_pos hlen, hins]
      rfl
    rw [hres]
    exact ⟨rfl, rfl⟩

theorem generate_punchlist_sequential_no_rollback_witness :
    ((generate_punchlist ⟨some "http://supabase", some "srk"⟩ "POST" (.ok ⟨none⟩)
        ⟨.ok [], fun _ => .error "boom", fun p => .ok p⟩).1.status = 500 ∧
      ∀ p, Effect.insertItems p ∉
        (generate_punchlist ⟨some "http://supabase", some "srk"⟩ "POST" (.ok ⟨none⟩)
          ⟨.ok [], fun _ => .error "boom", fun p => .ok p⟩).2) :=
  (generate_punchlist_sequential_no_rollback ⟨some "http://supabase", some "srk"⟩
      (.ok ⟨none⟩) ⟨.ok [], fun _ => .error "boom", fun p => .ok p⟩ []
      rfl rfl rfl).1 "boom" rfl

/-- C10: a request body that fails to parse as JSON is treated exactly like a
body whose `work_order_id` is absent: the handler's response and effect trace
are identical, and in particular the request is never rejected with 400 (the
handler never returns 400 at all). -/
theorem invalid_body_tolerated (env : Env) (method : String) (e : String)
    (be : Backend) :
    generate_punchlist env method (.error e) be =
      generate_punchlist env method (.ok ⟨none⟩) be ∧
    (generate_punchlist env method (.error e) be).1.status ≠ 400 := by
  constructor
  · rfl
  · unfold generate_punchlist
    dsimp only
    split
    · simp
    · split
      · simp
      · rcases be.diffView with t | diff
        · simp
        · rcases be.createPunchlist (parsedWoid (Except.error e)) with t | pl
          · simp
          · by_cases hlen : 0 < (computeItems diff).length
            · rcases hins : be.insertItemsReq (List.map (fun i =>
                  ({ item := i, punchlist_id := pl.id } : PersistedItem))
                  (computeItems diff)) with t | ins
              · simp [hlen, hins]
              · simp [hlen, hins]
            · simp [hlen]

theorem invalid_body_tolerated_witness :
    generate_punchlist ⟨some "http://supabase", some "srk"⟩ "POST" (.error "bad json")
        ⟨.ok [], fun _ => .ok ⟨"pl-1"⟩, fun p => .ok p⟩ =
      generate_punchlist ⟨some "http://supabase", some "srk"⟩ "POST" (.ok ⟨none⟩)
        ⟨.ok [], fun _ => .ok ⟨"pl-1"⟩, fun p => .ok p⟩ :=
  (invalid_body_tolerated ⟨some "http://supabase", some "srk"⟩ "POST" "bad json"
    ⟨.ok [], fun _ => .ok ⟨"pl-1"⟩, fun p => .ok p⟩).1

/-- A punchlist item row as selected for the PDF
(`manufacturer,model,room,expected_qty,received_qty,missing_qty,damaged_qty,issue`). -/
structure PdfItem where
  manufacturer : String
  model : String
  room : String
  expected_qty : Option Int
  received_qty : Option Int
  missing_qty : Option Int
  damaged_qty : Option Int
  issue : Option String
deriving DecidableEq

/-- Page height of the landscape-letter page `pdfDoc.addPage([792, 612])`. -/
def pageHeight : Nat := 612

/-- `const pageMargin = 50`. -/
def pageMargin : Nat := 50

/-- `const tableRowHeight = 22`. -/
def tableRowHeight : Nat := 22

/-- `const headerHeight = 24`. -/
def headerHeight : Nat := 24

/-- `measureRowsPerPage`: `usable = height - 2*margin - 180`;
`rowsPerPage = floor((usable - headerHeight) / tableRowHeight)`.  Every page
has the same height, so this is a constant. -/
def measureRowsPerPage : Nat :=
  (pageHeight - pageMargin * 2 - 180 - headerHeight) / tableRowHeight

/-- Fuel-indexed chunking of the pagination loop: each iteration takes the
next `R` items (`items.slice(startIdx, startIdx + rowsPerPage)`) and advances
`startIdx`.  Fuel `l.length` suffices because each iteration with a nonempty
remainder consumes at least one element (`R ≥ 1`). -/
def chunksF {α : Type} (R : Nat) : Nat → List α → List (List α)
  | 0, _ => []
  | _ + 1, [] => []
  | fuel + 1, x :: xs => (x :: xs).take R :: chunksF R fuel (xs.drop (R - 1))

/-- Chunk a nonempty list into consecutive slices of `R` items. -/
def chunks {α : Type} (R : Nat) (l : List α) : List (List α) :=
  chunksF R l.length l

/-- The pagination loop of `buildPdf`:
`while (startIdx < items.length || pageIndex === 0)` — one empty page when
there are no items, otherwise consecutive `R`-sized slices. -/
def paginate {α : Type} (R : Nat) (items : List α) : List (List α) :=
  if items.isEmpty then [[]] else chunks R items

theorem chunksF_join {α : Type} (R : Nat) (hR : 1 ≤ R) :
    ∀ (fuel : Nat) (l : List α), l.length ≤ fuel → (chunksF R fuel l).flatten = l := by
  intro fuel
  induction fuel with
  | zero =>
    intro l hl
    have : l = [] := List.eq_nil_of_length_eq_zero (Nat.le_zero.mp hl)
    subst this
    simp [chunksF]
  | succ n ih =>
    intro l hl
    match l with
    | [] => simp [chunksF]
    | x :: xs =>
      have hdrop : xs.drop (R - 1) = (x :: xs).drop R := by
        cases R with
        | zero => omega
        | succ r => simp [List.drop_succ_cons]
      have hlen : (xs.drop (R - 1)).length ≤ n := by
        rw [List.length_drop]
        simp only [List.length_cons] at hl
        omega
      simp only [chunksF, List.flatten_cons]
      rw [ih _ hlen, hdrop, List.take_append_drop]

theorem chunksF_length {α : Type} (R : Nat) (hR : 1 ≤ R) :
    ∀ (fuel : Nat) (l : List α), l.length ≤ fuel →
      (chunksF R fuel l).length = (l.length + R - 1) / R := by
  intro fuel
  induction fuel with
  | zero =>
    intro l hl
    have : l = [] := List.eq_nil_of_length_eq_zero (Nat.le_zero.mp hl)
    subst this
    have h0 : (R - 1) / R = 0 := Nat.div_eq_of_lt (by omega)
    simp [chunksF, h0]
  | succ n ih =>
    intro l hl
    match l with
    | [] =>
      have h0 : (R - 1) / R = 0 := Nat.div_eq_of_lt (by omega)
      simp [chunksF, h0]
    | x :: xs =>
      have hlen : (xs.drop (R - 1)).length ≤ n := by
        rw [List.length_drop]
        simp only [List.length_cons] at hl
        omega
      simp only [chunksF, List.length_cons, ih _ hlen, List.length_drop]
      rcases Nat.lt_or_ge xs.length (R - 1) with hc | hc
      · have h1 : xs.length - (R - 1) = 0 := by omega
        rw [h1]
        have h2 : (0 + R - 1) / R = 0 := Nat.div_eq_of_lt (by omega)
        rw [h2]
        have h3 : xs.length + 1 + R - 1 = xs.length + R := by omega
        rw [h3, Nat.add_div_right _ (by omega), Nat.div_eq_of_lt (by omega)]
      · have h1 : xs.length - (R - 1) + R - 1 = xs.length := by omega
        rw [h1]
        have h3 : xs.length + 1 + R - 1 = xs.length + R := by omega
        rw [h3, Nat.add_div_right _ (by omega)]

theorem chunksF_getElem {α : Type} (R : Nat) (hR : 1 ≤ R) :
    ∀ (fuel : Nat) (l : List α) (i : Nat), l.length ≤ fuel →
      i < (chunksF R fuel l).length →
      (chunksF R fuel l)[i]? = some ((l.drop (i * R)).take R) := by
  intro fuel
  induction fuel with
  | zero =>
    intro l i hl hi
    have : l = [] := List.eq_nil_of_length_eq_zero (Nat.le_zero.mp hl)
    subst this
    simp [chunksF] at hi
  | succ n ih =>
    intro l i hl hi
    match l with
    | [] => simp [chunksF] at hi
    | x :: xs =>
      match i with
      | 0 => simp [chunksF]
      | j + 1 =>
        have hlen : (xs.drop (R - 1)).length ≤ n := by
          rw [List.length_drop]
          simp only [List.length_cons] at hl
          omega
        have hj : j < (chunksF R n (xs.drop (R - 1))).length := by
          simp only [chunksF, List.length_cons] at hi
          omega
        simp only [chunksF, List.getElem?_cons_succ, ih _ j hlen hj]
        congr 1
        rw [List.drop_drop]
        have hmul : (j + 1) * R = j * R + R := Nat.succ_mul j R
        have h1 : R - 1 + j * R + 1 = (j + 1) * R := by rw [hmul]; omega
        conv_rhs => rw [← h1, List.drop_succ_cons]

/-- C3: with the renderer's fixed rows-per-page capacity
`R = measureRowsPerPage`, paginating `N` items yields exactly
`ceil(N/R)` pages (exactly 1 when `N = 0`), page `i` is the consecutive slice
`items.slice(i*R, i*R + R)`, and concatenating the pages in order restores
the input list. -/
theorem paginate_pages_spec (items : List PdfItem) :
    (paginate measureRowsPerPage items).length =
      (if items.length = 0 then 1
       else (items.length + measureRowsPerPage - 1) / measureRowsPerPage) ∧
    (paginate measureRowsPerPage items).flatten = items ∧
    (∀ i, i < (paginate measureRowsPerPage items).length →
      (paginate measureRowsPerPage items)[i]? =
        some ((items.drop (i * measureRowsPerPage)).take measureRowsPerPage)) := by
  have hR : 1 ≤ measureRowsPerPage := by decide
  by_cases hempty : items = []
  · subst hempty
    refine ⟨rfl, rfl, ?_⟩
    intro i hi
    simp only [paginate, List.isEmpty_nil, if_true, List.length_cons,
      List.length_nil] at hi
    have : i = 0 := by omega
    subst this
    rfl
  · have hne : items.isEmpty = false := by
      simp [List.isEmpty_iff, hempty]
    have hlen0 : items.length ≠ 0 := by
      simp [List.length_eq_zero, hempty]
    unfold paginate
    rw [hne]
    simp only [Bool.false_eq_true, if_false, if_neg hlen0]
    exact ⟨chunksF_length _ hR _ _ le_rfl, chunksF_join _ hR _ _ le_rfl,
      fun i hi => chunksF_getElem _ hR _ _ i le_rfl hi⟩

theorem paginate_pages_spec_witness :
    (paginate measureRowsPerPage ([] : List PdfItem))[0]? = some [] :=
  (paginate_pages_spec []).2.2 0 (by decide)

/-- The footer's page-number string: `` `Page ${pageNumber} of ${pageCount}` ``. -/
def footerText (pageNumber pageCount : Nat) : String :=
  "Page " ++ toString pageNumber ++ " of " ++ toString pageCount

/-- One drawing step of `buildPdf` at page granularity: either the main
`pages.forEach` body composing page `pageIdx` with its item slice (and the
optional logos), or one `drawFooter` call of the final loop. -/
inductive RenderOp where
  | drawPage (pageIdx : Nat) (pageItems : List PdfItem)
      (companyLogo clientLogo : Bool)
  | drawFooterOp (pageIdx : Nat) (text : String)
deriving DecidableEq

/-- The page count `pdfDoc.getPageCount()` after the pagination loop. -/
def numPages (items : List PdfItem) : Nat :=
  (paginate measureRowsPerPage items).length

/-- `buildPdf` as an ordered trace of page-level drawing steps: first the
`pages.forEach` pass composing every page, then the footer loop
`for (let i = 0; i < pageCount; i++) drawFooter(page i, font, i+1, pageCount)`. -/
def buildPdf (companyLogo clientLogo : Bool) (items : List PdfItem) :
    List RenderOp :=
  let pages := paginate measureRowsPerPage items
  (pages.enum.map fun p => RenderOp.drawPage p.1 p.2 companyLogo clientLogo) ++
    ((List.range pages.length).map fun i =>
      RenderOp.drawFooterOp i (footerText (i + 1) pages.length))

theorem buildPdf_getElem_left (companyLogo clientLogo : Bool)
    (items : List PdfItem) (j : Nat) (hj : j < numPages items) :
    (buildPdf companyLogo clientLogo items)[j]? =
      some (RenderOp.drawPage j ((paginate measureRowsPerPage items).getD j [])
        companyLogo clientLogo) := by
  unfold buildPdf numPages at *
  dsimp only
  rw [List.getElem?_append, if_pos (by simpa using hj)]
  rw [List.getElem?_map, List.getElem?_enum]
  rw [List.getElem?_eq_getElem hj]
  simp [List.getD, List.getElem?_eq_getElem hj]

theorem buildPdf_getElem_right (companyLogo clientLogo : Bool)
    (items : List PdfItem) (j : Nat) (hj : numPages items ≤ j) :
    (buildPdf companyLogo clientLogo items)[j]? =
      if j - numPages items < numPages items then
        some (RenderOp.drawFooterOp (j - numPages items)
          (footerText (j - numPages items + 1) (numPages items)))
      else none := by
  unfold buildPdf numPages at *
  dsimp only
  rw [List.getElem?_append_right (by simpa using hj)]
  rw [List.getElem?_map]
  simp only [List.length_map, List.enum_length]
  by_cases hlt : j - (paginate measureRowsPerPage items).length <
      (paginate measureRowsPerPage items).length
  · rw [if_pos hlt, List.getElem?_range hlt]
    rfl
  · rw [if_neg hlt, List.getElem?_eq_none (by simpa using Nat.le_of_not_lt hlt)]
    rfl

/-- C6: every page `i` (0-indexed) of the `M`-page document receives the
footer text `Page (i+1) of M`; any footer step in the trace carries exactly
that text for its page; and every footer step occurs strictly after every
page-composition step — the footers are a second pass run once all `M` pages
exist. -/
theorem buildPdf_footer_second_pass (companyLogo clientLogo : Bool)
    (items : List PdfItem) :
    (∀ i, i < numPages items →
      RenderOp.drawFooterOp i (footerText (i + 1) (numPages items)) ∈
        buildPdf companyLogo clientLogo items) ∧
    (∀ (j i : Nat) (t : String), (buildPdf companyLogo clientLogo items)[j]? =
        some (RenderOp.drawFooterOp i t) →
      t = footerText (i + 1) (numPages items)) ∧
    (∀ (j i : Nat) (t : String) (k p : Nat) (its : List PdfItem) (a b : Bool),
      (buildPdf companyLogo clientLogo items)[j]? =
        some (RenderOp.drawFooterOp i t) →
      (buildPdf companyLogo clientLogo items)[k]? =
        some (RenderOp.drawPage p its a b) →
      k < j) := by
  refine ⟨?_, ?_, ?_⟩
  · intro i hi
    unfold buildPdf
    apply List.mem_append_right
    exact List.mem_map_of_mem _ (List.mem_range.mpr hi)
  · intro j i t hj
    rcases Nat.lt_or_ge j (numPages items) with hlt | hge
    · rw [buildPdf_getElem_left companyLogo clientLogo items j hlt] at hj
      exact absurd (Option.some.inj hj) (by simp)
    · rw [buildPdf_getElem_right companyLogo clientLogo items j hge] at hj
      by_cases hlt2 : j - numPages items < numPages items
      · rw [if_pos hlt2] at hj
        have := Option.some.inj hj
        rw [RenderOp.drawFooterOp.injEq] at this
        rw [← this.1, this.2]
      · rw [if_neg hlt2] at hj
        exact absurd hj (by simp)
  · intro j i t k p its a b hj hk
    rcases Nat.lt_or_ge j (numPages items) with hltj | hgej
    · rw [buildPdf_getElem_left companyLogo clientLogo items j hltj] at hj
      exact absurd (Option.some.inj hj) (by simp)
    · rcases Nat.lt_or_ge k (numPages items) with hltk | hgek
      · omega
      · rw [buildPdf_getElem_right companyLogo clientLogo items k hgek] at hk
        by_cases hlt2 : k - numPages items < numPages items
        · rw [if_pos hlt2] at hk
          exact absurd (Option.some.inj hk) (by simp)
        · rw [if_neg hlt2] at hk
          exact absurd hk (by simp)

theorem buildPdf_footer_second_pass_witness :
    RenderOp.drawFooterOp 0 (footerText 1 1) ∈ buildPdf true true [] :=
  (buildPdf_footer_second_pass true true []).1 0 (by decide)

/-- The single-line clamp loop of `drawText`, fuel-indexed:
`while (font.widthOfTextAtSize(t, size) > maxWidth && t.length > 0)
   t = t.slice(0, -1);`
Fuel `t.length` suffices: each iteration removes exactly one character. -/
def clampTextF (w : List Char → Int) (maxWidth : Int) :
    Nat → List Char → List Char
  | 0, t => t
  | fuel + 1, t =>
    if maxWidth < w t ∧ t ≠ [] then clampTextF w maxWidth fuel t.dropLast else t

/-- The clamp loop run to completion on `text`. -/
def clampText (w : List Char → Int) (maxWidth : Int) (text : List Char) :
    List Char :=
  clampTextF w maxWidth text.length text

/-- `drawText`: with no `maxWidth` the text is drawn unchanged, otherwise the
clamped text is drawn. -/
def drawTextContent (w : List Char → Int) (maxWidth : Option Int)
    (text : List Char) : List Char :=
  match maxWidth with
  | none => text
  | some m => clampText w m text

theorem dropLast_take_eq {α : Type} (l : List α) (j : Nat)
    (hj : j ≤ l.length - 1) : l.dropLast.take j = l.take j := by
  rw [List.dropLast_eq_take, List.take_take]
  congr 1
  omega

theorem clampTextF_spec (w : List Char → Int) (m : Int) :
    ∀ (fuel : Nat) (t : List Char), t.length ≤ fuel →
      (clampTextF w m fuel t = t.take (clampTextF w m fuel t).length) ∧
      (w (clampTextF w m fuel t) ≤ m ∨ clampTextF w m fuel t = []) ∧
      (∀ j, (clampTextF w m fuel t).length < j → j ≤ t.length →
        m < w (t.take j)) ∧
      (w t ≤ m → clampTextF w m fuel t = t) := by
  intro fuel
  induction fuel with
  | zero =>
    intro t ht
    have : t = [] := List.eq_nil_of_length_eq_zero (Nat.le_zero.mp ht)
    subst this
    refine ⟨rfl, Or.inr rfl, ?_, fun _ => rfl⟩
    intro j hj1 hj2
    simp [clampTextF] at hj1 hj2
    omega
  | succ n ih =>
    intro t ht
    by_cases hcond : m < w t ∧ t ≠ []
    · have hstep : clampTextF w m (n + 1) t = clampTextF w m n t.dropLast := by
        simp [clampTextF, hcond]
      have hne : t ≠ [] := hcond.2
      have hlen1 : 1 ≤ t.length := by
        cases t with
        | nil => exact absurd rfl hne
        | cons a l => simp
      have hdl : t.dropLast.length ≤ n := by
        rw [List.length_dropLast]
        omega
      obtain ⟨ih1, ih2, ih3, _⟩ := ih t.dropLast hdl
      rw [hstep]
      refine ⟨?_, ih2, ?_, ?_⟩
      · have hle : (clampTextF w m n t.dropLast).length ≤ t.dropLast.length := by
          conv_lhs => rw [ih1]
          simp only [List.length_take]
          exact min_le_right _ _
        rw [List.length_dropLast] at hle
        rw [← dropLast_take_eq t _ (by omega)]
        exact ih1
      · intro j hj1 hj2
        rcases Nat.lt_or_ge j t.length with hjlt | hjge
        · have hj3 : j ≤ t.dropLast.length := by
            rw [List.length_dropLast]
            omega
          have := ih3 j hj1 hj3
          rwa [dropLast_take_eq t j (by omega)] at this
        · have hjeq : j = t.length := by omega
          rw [hjeq, List.take_length]
          exact hcond.1
      · intro hw
        exact absurd hcond.1 (not_lt.mpr hw)
    · have hstep : clampTextF w m (n + 1) t = t := by
        simp only [clampTextF, if_neg hcond]
      rw [hstep]
      refine ⟨(List.take_length t).symm, ?_, ?_, fun _ => rfl⟩
      · rcases not_and_or.mp hcond with h | h
        · exact Or.inl (not_lt.mp h)
        · exact Or.inr (not_not.mp h)
      · intro j hj1 hj2
        omega

/-- C7: `drawText` with a `maxWidth` draws an initial segment of the text
(`take` of its own length), whose rendered width fits unless it is empty,
such that every strictly longer initial segment overflows — i.e. the longest
fitting initial segment, with no ellipsis and no wrapping; text whose width
already fits (and text drawn with no `maxWidth`) is drawn unchanged. -/
theorem drawText_clamp_longest (w : List Char → Int) (m : Int)
    (text : List Char) :
    (drawTextContent w (some m) text =
      text.take (drawTextContent w (some m) text).length) ∧
    (w (drawTextContent w (some m) text) ≤ m ∨
      drawTextContent w (some m) text = []) ∧
    (∀ j, (drawTextContent w (some m) text).length < j → j ≤ text.length →
      m < w (text.take j)) ∧
    (w text ≤ m → drawTextContent w (some m) text = text) ∧
    drawTextContent w none text = text :=
  ⟨(clampTextF_spec w m text.length text le_rfl).1,
   (clampTextF_spec w m text.length text le_rfl).2.1,
   (clampTextF_spec w m text.length text le_rfl).2.2.1,
   (clampTextF_spec w m text.length text le_rfl).2.2.2,
   rfl⟩

theorem drawText_clamp_longest_witness :
    drawTextContent (fun l => (l.length : Int)) (some 2) "ab".data = "ab".data :=
  (drawText_clamp_longest (fun l => (l.length : Int)) 2 "ab".data).2.2.2.1
    (by decide)

/-- The result of a successful `fetch(url)` for a logo: HTTP status, the
`content-type` response header (`""` when absent, via `|| ""`), and the body
bytes (`await res.arrayBuffer()`). -/
structure FetchResp where
  status : Nat
  contentType : String
  bytes : List Nat
deriving DecidableEq

/-- `res.ok`: status in the inclusive range 200–299. -/
def respOk (r : FetchResp) : Bool :=
  decide (200 ≤ r.status ∧ r.status < 300)

/-- Whether `pat` occurs at the start of `s` (character lists). -/
def startsWithL : List Char → List Char → Bool
  | [], _ => true
  | _ :: _, [] => false
  | p :: ps, c :: cs => p = c && startsWithL ps cs

/-- Whether `pat` occurs anywhere in `s`, as in JavaScript `s.includes(pat)`. -/
def containsSubL (pat : List Char) : List Char → Bool
  | [] => startsWithL pat []
  | c :: cs => startsWithL pat (c :: cs) || containsSubL pat cs

/-- `s.includes(pat)` on strings. -/
def containsStr (s pat : String) : Bool :=
  containsSubL pat.data s.data

/-- An image embedded into the document, as PNG or as JPEG
(`pdfDoc.embedPng` / `pdfDoc.embedJpg`). -/
inductive EmbeddedImage where
  | png (bytes : List Nat)
  | jpg (bytes : List Nat)
deriving DecidableEq

/-- `embedRemoteImage(pdfDoc, url)`: `null` for an empty URL; `null` when the
fetch throws (`Except.error`) or returns non-2xx; otherwise embed as PNG when
the `content-type` header contains `"png"`, else default to JPEG. -/
def embedRemoteImage (fetchResult : Except String FetchResp) (url : String) :
    Option EmbeddedImage :=
  if url = "" then none
  else
    match fetchResult with
    | .error _ => none
    | .ok res =>
      if respOk res then
        if containsStr res.contentType "png" then some (.png res.bytes)
        else some (.jpg res.bytes)
      else none

/-- The whole `buildPdf` run including the logo pre-embedding: the two logo
URLs are fetched (results supplied as parameters) and the page/footer trace
is drawn with whatever logos embedded successfully.  Total: a logo failure
can never abort the render. -/
def buildPdfFull (companyFetch clientFetch : Except String FetchResp)
    (companyUrl clientUrl : String) (items : List PdfItem) : List RenderOp :=
  buildPdf (embedRemoteImage companyFetch companyUrl).isSome
    (embedRemoteImage clientFetch clientUrl).isSome items

/-- C8: when the logo fetch throws or returns a non-2xx status (e.g. 404),
the logo is silently omitted (`embedRemoteImage` yields `none`) and the
report renders exactly as it would with no company logo — the failure never
propagates to the caller. -/
theorem logo_fetch_nonfatal (companyFetch clientFetch : Except String FetchResp)
    (companyUrl clientUrl : String) (items : List PdfItem)
    (hfail : (∃ e, companyFetch = .error e) ∨
      (∃ r, companyFetch = .ok r ∧ respOk r = false)) :
    embedRemoteImage companyFetch companyUrl = none ∧
    buildPdfFull companyFetch clientFetch companyUrl clientUrl items =
      buildPdf false (embedRemoteImage clientFetch clientUrl).isSome items := by
  have hnone : embedRemoteImage companyFetch companyUrl = none := by
    unfold embedRemoteImage
    rcases hfail with ⟨e, he⟩ | ⟨r, hr, hbad⟩
    · rw [he]
      split
      · rfl
      · rfl
    · rw [hr]
      split
      · rfl
      · simp only [hbad]
        rfl
  refine ⟨hnone, ?_⟩
  unfold buildPdfFull
  rw [hnone]
  rfl

theorem logo_fetch_nonfatal_witness :
    (embedRemoteImage (.ok ⟨404, "text/html", []⟩) "http://x/logo.png" = none ∧
      buildPdfFull (.ok ⟨404, "text/html", []⟩) (.error "net down")
          "http://x/logo.png" "http://y/logo.png" [] =
        buildPdf false
          (embedRemoteImage (.error "net down") "http://y/logo.png").isSome []) :=
  logo_fetch_nonfatal (.ok ⟨404, "text/html", []⟩) (.error "net down")
    "http://x/logo.png" "http://y/logo.png" []
    (Or.inr ⟨⟨404, "text/html", []⟩, rfl, rfl⟩)

/-- C9 counterexample: the PNG/JPEG decision is NOT made from the leading
magic byte of the fetched bytes.  Two successful responses with identical
bytes (hence identical leading byte, here the PNG magic `0x89`) are embedded
differently, because only the `content-type` header is consulted. -/
theorem logo_kind_not_by_magic_byte :
    (FetchResp.mk 200 "image/png" [137, 80, 78, 71]).bytes =
      (FetchResp.mk 200 "image/jpeg" [137, 80, 78, 71]).bytes ∧
    embedRemoteImage (.ok ⟨200, "image/png", [137, 80, 78, 71]⟩) "http://x/a" =
      some (.png [137, 80, 78, 71]) ∧
    embedRemoteImage (.ok ⟨200, "image/jpeg", [137, 80, 78, 71]⟩) "http://x/a" =
      some (.jpg [137, 80, 78, 71]) := by
  refine ⟨rfl, ?_, ?_⟩
  · rfl
  · rfl

/-- Projection of the embedding decision: `true` iff embedded as PNG. -/
def isPngImg : EmbeddedImage → Bool
  | .png _ => true
  | .jpg _ => false

/-- C9 (amended): for a successfully fetched logo, the renderer decides PNG
vs JPEG solely from the response's `content-type` header — PNG iff the header
contains `"png"`, JPEG otherwise; the decision is independent of the bytes
(the leading magic byte is never inspected). -/
theorem logo_kind_by_content_type (url : String) (st : Nat) (ct : String)
    (b1 b2 : List Nat) (hu : url ≠ "")
    (hok : respOk ⟨st, ct, b1⟩ = true) :
    ((embedRemoteImage (.ok ⟨st, ct, b1⟩) url).map isPngImg =
      (embedRemoteImage (.ok ⟨st, ct, b2⟩) url).map isPngImg) ∧
    (embedRemoteImage (.ok ⟨st, ct, b1⟩) url = some (.png b1) ↔
      containsStr ct "png" = true) ∧
    (embedRemoteImage (.ok ⟨st, ct, b1⟩) url = some (.jpg b1) ↔
      containsStr ct "png" = false) := by
  have hok2 : respOk ⟨st, ct, b2⟩ = true := hok
  unfold embedRemoteImage
  rw [if_neg hu, if_neg hu] at *
  simp only [hok, hok2, if_true]
  by_cases hct : containsStr ct "png" = true
  · rw [if_pos hct, if_pos hct]
    refine ⟨rfl, ?_, ?_⟩ <;> simp [hct, isPngImg]
  · rw [if_neg hct, if_neg hct]
    simp only [Bool.not_eq_true] at hct
    refine ⟨rfl, ?_, ?_⟩ <;> simp [hct, isPngImg]

theorem logo_kind_by_content_type_witness :
    (embedRemoteImage (.ok ⟨200, "image/png", [1, 2]⟩) "http://x/a" =
      some (.png [1, 2]) ↔ containsStr "image/png" "png" = true) :=
  (logo_kind_by_content_type "http://x/a" 200 "image/png" [1, 2] [3]
    (by decide) (by decide)).2.1
